import Mathlib

/-!
# ExerciseTracker: a shallow embedding of `src/index.js`

The service keeps one process-wide array `users`; every route handler is a
single synchronous step over it.  Each handler is embedded as a pure function
taking the array before the request and returning the JSON reply together with
the array after the request.

What the handlers obtain from the JavaScript engine (`Date` parsing, the local
time zone, `toDateString`, the clock and `crypto.randomBytes`) is passed in
explicitly: the engine-dependent functions through `Runtime`, the clock reading
and the random bytes as arguments of the request that consumes them.

Modelling conventions:
* form fields, route parameters and query parameters are optional strings
  (`none` = absent), as the urlencoded form of the service sends them;
* a `Date` is its time value, an integer number of milliseconds since the
  epoch, of magnitude at most 8640000000000000; the invalid date (`NaN`) is
  `none`;
* a `Number` returned by `parseInt` is a `Num`: an integer-valued double, given
  by its integer value, or an infinity; `NaN` is `none`.  The integer read from
  the digits is rounded to the nearest double, ties to even, and becomes an
  infinity beyond the double range (ECMA-262 lets an engine drop decimal
  digits after the 20th before rounding; the model rounds the exact value).
  Negative zero is identified with zero: the handlers compare it, pass it to
  `slice` and serialise it as they do zero;
* a number in a JSON reply is an `Option Int`: `JSON.stringify` writes an
  infinity as `null`, which is `none`;
* the local time zone is a fixed offset `tza` from UTC (no daylight-saving
  transitions).
-/

namespace ExerciseTracker

/-! ## Engine primitives -/

/-- JavaScript truthiness of an optional string field: `undefined` and the
empty string are falsy, every other string is truthy. -/
def truthy : Option String → Bool
  | none => false
  | some s => s ≠ ""

/-- The characters skipped by `parseInt` at the start of its input
(ECMA-262 `WhiteSpace` and `LineTerminator`). -/
def isStrWhiteSpaceChar (c : Char) : Bool :=
  let n := c.toNat
  n = 0x09 ∨ n = 0x0A ∨ n = 0x0B ∨ n = 0x0C ∨ n = 0x0D ∨ n = 0x20 ∨ n = 0xA0 ∨
  n = 0x1680 ∨ (0x2000 ≤ n ∧ n ≤ 0x200A) ∨ n = 0x2028 ∨ n = 0x2029 ∨
  n = 0x202F ∨ n = 0x205F ∨ n = 0x3000 ∨ n = 0xFEFF

/-- Value of a character read as a digit (`0-9`, `a-z`, `A-Z`), if it is one. -/
def digitValue (c : Char) : Option Nat :=
  let n := c.toNat
  if 48 ≤ n ∧ n ≤ 57 then some (n - 48)
  else if 97 ≤ n ∧ n ≤ 122 then some (n - 97 + 10)
  else if 65 ≤ n ∧ n ≤ 90 then some (n - 65 + 10)
  else none

/-- Value of a character as a digit of radix `R`, if it is one. -/
def radixDigit (R : Nat) (c : Char) : Option Nat :=
  match digitValue c with
  | some d => if d < R then some d else none
  | none => none

/-- Digit values of the longest prefix made of radix-`R` digits. -/
def takeDigits (R : Nat) : List Char → List Nat
  | [] => []
  | c :: cs =>
    match radixDigit R c with
    | some d => d :: takeDigits R cs
    | none => []

/-- The number denoted by a list of digit values in radix `R`. -/
def mathInt (R : Nat) (ds : List Nat) : Nat :=
  ds.foldl (fun acc d => acc * R + d) 0

/-- The sign read by `parseInt`: `-1` when the trimmed input starts with `-`. -/
def parseSign : List Char → Int
  | '-' :: _ => -1
  | _ => 1

/-- Removes one leading `+` or `-`. -/
def dropSign : List Char → List Char
  | '+' :: r => r
  | '-' :: r => r
  | S => S

/-- Radix selection of `parseInt` without a radix argument: a leading `0x` or
`0X` is removed and selects radix 16, otherwise the radix is 10. -/
def stripPrefixRadix : List Char → Nat × List Char
  | '0' :: 'x' :: r => (16, r)
  | '0' :: 'X' :: r => (16, r)
  | S => (10, S)

/-- The numbers `parseInt` returns besides `NaN`: a double with an integer value
(`fin`), or one of the infinities. -/
inductive Num where
  | fin (v : Int)
  | posInf
  | negInf
deriving DecidableEq, Repr

/-- The least exponent `e`, searched upwards from `e`, for which `m / 2 ^ e`
fits the 53 bits of a double's significand; `fuel` bounds the search. -/
def doubleExponent : Nat → Nat → Nat → Nat
  | 0, e, _ => e
  | fuel + 1, e, m => if m / 2 ^ e < 2 ^ 53 then e else doubleExponent fuel (e + 1) m

/-- The least natural number that rounds to infinity, `2^1024 - 2^970`: halfway
between the largest double and `2^1024`. -/
def doubleOverflow : Nat :=
  179769313486231580793728971405303415079934132710037826936173778980444968292764750946649017977587207096330286416692887910946555547851940402630657488671505820681908902000708383676273854845817711531764475730270069855571366959622842914819860834936475292719074168444365510704342711559699508093042880177904174497792

/-- The double nearest to a natural number, ties to even, as a natural number;
`none` when the number rounds to infinity. -/
def roundToDouble (m : Nat) : Option Nat :=
  if doubleOverflow ≤ m then none
  else
    let e := doubleExponent 1024 0 m
    let q := m / 2 ^ e
    let r := m % 2 ^ e
    let q := if 2 ^ e < 2 * r ∨ (2 * r = 2 ^ e ∧ q % 2 = 1) then q + 1 else q
    some (q * 2 ^ e)

/-- The Number value of an integer (ECMA-262 `𝔽`, with IEEE 754 rounding). -/
def toNumber (x : Int) : Num :=
  match roundToDouble x.natAbs with
  | some m => .fin (if x < 0 then -(m : Int) else (m : Int))
  | none => if x < 0 then .negInf else .posInf

/-- The integer read by `parseInt(string)` called without a radix, before it is
made a Number (ECMA-262 `parseInt`, steps 1 to 10); `none` is `NaN`. -/
def parseIntMath (string : String) : Option Int :=
  let S := string.toList.dropWhile isStrWhiteSpaceChar
  let sign := parseSign S
  let RS := stripPrefixRadix (dropSign S)
  let Z := takeDigits RS.1 RS.2
  if Z.isEmpty then none else some (sign * (mathInt RS.1 Z : Int))

/-- The global `parseInt(string)` of ECMA-262, called without a radix; `none` is `NaN`. -/
def parseInt (string : String) : Option Num :=
  (parseIntMath string).map toNumber

/-- The comparison `limitNum > 0` on a Number. -/
def Num.isPositive : Num → Bool
  | .fin v => 0 < v
  | .posInf => true
  | .negInf => false

/-- The array `array.slice(0, end)` for a Number `end`: a negative or zero bound
gives the empty array, a bound beyond the length gives the whole array. -/
def sliceTo {α : Type} (array : List α) : Num → List α
  | .fin v => array.take v.toNat
  | .posInf => array
  | .negInf => []

/-- A Number as `JSON.stringify` writes it: the number, or `null` for an infinity. -/
def jsonNumber : Num → Option Int
  | .fin v => some v
  | .posInf => none
  | .negInf => none

/-- Milliseconds in a day. -/
def msPerDay : Int := 86400000

/-- Largest magnitude of a valid time value (ECMA-262 `TimeClip`). -/
def maxTime : Int := 8640000000000000

/-- ECMA-262 `TimeClip`: time values beyond the supported range become `NaN`. -/
def TimeClip (time : Int) : Option Int :=
  if -maxTime ≤ time ∧ time ≤ maxTime then some time else none

/-- ECMA-262 `Day(t)`: the day number of a time value. -/
def Day (t : Int) : Int := t / msPerDay

/-- ECMA-262 `MakeTime(hour, min, sec, ms)`. -/
def MakeTime (hour min sec ms : Int) : Int :=
  hour * 3600000 + min * 60000 + sec * 1000 + ms

/-- ECMA-262 `MakeDate(day, time)`. -/
def MakeDate (day time : Int) : Int := day * msPerDay + time

/-- What the handlers take from the JavaScript engine and the host.
`tza` is the local time zone offset in milliseconds, `dateParse` is `Date.parse`
(`none` is `NaN`), `toDateString` is `Date.prototype.toDateString` on a valid
time value. -/
structure Runtime where
  tza : Int
  dateParse : String → Option Int
  toDateString : Int → String

/-- The time value of `new Date(string)`; `none` when `isNaN(date.getTime())`. -/
def newDate (rt : Runtime) (string : String) : Option Int :=
  (rt.dateParse string).bind TimeClip

/-- The time value left in a valid `Date` by `setHours(hour, min, sec, ms)`:
the fields are replaced in local time and the result is clipped. -/
def setHours (rt : Runtime) (t hour min sec ms : Int) : Option Int :=
  TimeClip (MakeDate (Day (t + rt.tza)) (MakeTime hour min sec ms) - rt.tza)

/-- The bytes-to-text step of `Buffer.toString('hex')` for one nibble. -/
def hexDigit (n : Nat) : Char :=
  if n < 10 then Char.ofNat (48 + n) else Char.ofNat (87 + n)

/-- The characters of `Buffer.toString('hex')`: two lower-case digits per byte. -/
def hexChars : List (Fin 256) → List Char
  | [] => []
  | b :: bs => hexDigit (b.val / 16) :: hexDigit (b.val % 16) :: hexChars bs

/-- The string `buffer.toString('hex')`. -/
def toHex (buffer : List (Fin 256)) : String := String.mk (hexChars buffer)

/-! ## Data model -/

/-- An entry of `user.exercises` (the `newExercise` object). -/
structure Exercise where
  description : String
  duration : Num
  date : Int
deriving DecidableEq, Repr

/-- An element of the `users` array (the `newUser` object). -/
structure User where
  username : String
  _id : String
  exercises : List Exercise
deriving DecidableEq, Repr

/-- A JSON error reply: HTTP status and the `error` message. -/
structure HttpError where
  status : Nat
  error : String
deriving DecidableEq, Repr

/-- The reply of `POST /api/users` and an element of the reply of `GET /api/users`. -/
structure UserJson where
  username : String
  _id : String
deriving DecidableEq, Repr

/-- The reply of `POST /api/users/:_id/exercises`. -/
structure ExerciseJson where
  username : String
  description : String
  duration : Option Int
  date : String
  _id : String
deriving DecidableEq, Repr

/-- An element of `formattedLog`. -/
structure LogEntry where
  description : String
  duration : Option Int
  date : String
deriving DecidableEq, Repr

/-- The reply of `GET /api/users/:_id/logs`. -/
structure LogJson where
  username : String
  count : Nat
  _id : String
  log : List LogEntry
deriving DecidableEq, Repr

deriving instance DecidableEq for Except

/-! ## Route handlers -/

/-- `POST /api/users` (create_user): `username` is the form field,
`randomBytes` the result of `crypto.randomBytes(12)`. -/
def create_user (users : List User) (username : Option String)
    (randomBytes : List (Fin 256)) : Except HttpError UserJson × List User :=
  if !truthy username then (.error ⟨400, "Username is required"⟩, users)
  else
    let _id := toHex randomBytes
    let newUser : User := ⟨username.getD "", _id, []⟩
    (.ok ⟨newUser.username, newUser._id⟩, users ++ [newUser])

/-- `GET /api/users` (list_users). -/
def list_users (users : List User) : List UserJson × List User :=
  let userList := users.map (fun user => (⟨user.username, user._id⟩ : UserJson))
  (userList, users)

/-- The effect of `user.exercises.push(newExercise)` on the array, where `user`
is the first element whose `_id` equals `userId`. -/
def pushExercise (userId : String) (newExercise : Exercise) : List User → List User
  | [] => []
  | u :: us =>
    if u._id = userId then
      { u with exercises := u.exercises ++ [newExercise] } :: us
    else u :: pushExercise userId newExercise us

/-- `POST /api/users/:_id/exercises` (append_exercise): `now` is the clock
reading taken by `new Date()` when no date is supplied. -/
def append_exercise (rt : Runtime) (now : Int) (users : List User) (userId : String)
    (description duration dateInput : Option String) :
    Except HttpError ExerciseJson × List User :=
  if !truthy description || !truthy duration then
    (.error ⟨400, "Description and duration are required"⟩, users)
  else
    match parseInt (duration.getD "") with
    | none => (.error ⟨400, "Duration must be a number"⟩, users)
    | some durationNum =>
      match users.find? (fun u => u._id = userId) with
      | none => (.error ⟨404, "User not found"⟩, users)
      | some user =>
        let exerciseDate :=
          if truthy dateInput then newDate rt (dateInput.getD "") else some now
        match exerciseDate with
        | none => (.error ⟨400, "Invalid date format. Please use yyyy-mm-dd."⟩, users)
        | some exerciseDate =>
          let newExercise : Exercise := ⟨description.getD "", durationNum, exerciseDate⟩
          (.ok ⟨user.username, newExercise.description, jsonNumber newExercise.duration,
                rt.toDateString newExercise.date, user._id⟩,
           pushExercise userId newExercise users)

/-- The `from` step of the log query. -/
def applyFrom (rt : Runtime) (qfrom : Option String) (exercisesToLog : List Exercise) :
    List Exercise :=
  if truthy qfrom then
    match newDate rt (qfrom.getD "") with
    | some fromDate => exercisesToLog.filter (fun ex => ex.date ≥ fromDate)
    | none => exercisesToLog
  else exercisesToLog

/-- The comparison `ex.date <= toDate`, false when `toDate` is the invalid date. -/
def dateLe (date : Int) (toDate : Option Int) : Bool :=
  match toDate with
  | some u => date ≤ u
  | none => false

/-- The `to` step of the log query. -/
def applyTo (rt : Runtime) (qto : Option String) (exercisesToLog : List Exercise) :
    List Exercise :=
  if truthy qto then
    match newDate rt (qto.getD "") with
    | some toDate =>
      let toDate := setHours rt toDate 23 59 59 999
      exercisesToLog.filter (fun ex => dateLe ex.date toDate)
    | none => exercisesToLog
  else exercisesToLog

/-- The `limit` step of the log query. -/
def applyLimit (qlimit : Option String) (exercisesToLog : List Exercise) : List Exercise :=
  if truthy qlimit then
    match parseInt (qlimit.getD "") with
    | some limitNum =>
      if limitNum.isPositive then sliceTo exercisesToLog limitNum else exercisesToLog
    | none => exercisesToLog
  else exercisesToLog

/-- One element of `formattedLog`. -/
def formatEntry (rt : Runtime) (ex : Exercise) : LogEntry :=
  ⟨ex.description, jsonNumber ex.duration, rt.toDateString ex.date⟩

/-- `GET /api/users/:_id/logs` (get_log). -/
def get_log (rt : Runtime) (users : List User) (userId : String)
    (qfrom qto qlimit : Option String) : Except HttpError LogJson × List User :=
  match users.find? (fun u => u._id = userId) with
  | none => (.error ⟨404, "User not found"⟩, users)
  | some user =>
    let exercisesToLog := user.exercises
    let exercisesToLog := applyFrom rt qfrom exercisesToLog
    let exercisesToLog := applyTo rt qto exercisesToLog
    let exercisesToLog := applyLimit qlimit exercisesToLog
    let formattedLog := exercisesToLog.map (formatEntry rt)
    (.ok ⟨user.username, formattedLog.length, user._id, formattedLog⟩, users)

/-! ## The service as a state machine -/

/-- A request to one of the four routes, with the environment values it consumes. -/
inductive Request where
  | createUser (username : Option String) (randomBytes : List (Fin 256))
  | listUsers
  | appendExercise (now : Int) (userId : String) (description duration date : Option String)
  | getLog (userId : String) (qfrom qto qlimit : Option String)

/-- The JSON reply to a request. -/
inductive Response where
  | createUser (r : Except HttpError UserJson)
  | listUsers (r : List UserJson)
  | appendExercise (r : Except HttpError ExerciseJson)
  | getLog (r : Except HttpError LogJson)

/-- One request served on the array `users`: the reply and the array afterwards. -/
def handle (rt : Runtime) (users : List User) : Request → Response × List User
  | .createUser username randomBytes =>
    let r := create_user users username randomBytes
    (.createUser r.1, r.2)
  | .listUsers =>
    let r := list_users users
    (.listUsers r.1, r.2)
  | .appendExercise now userId description duration date =>
    let r := append_exercise rt now users userId description duration date
    (.appendExercise r.1, r.2)
  | .getLog userId qfrom qto qlimit =>
    let r := get_log rt users userId qfrom qto qlimit
    (.getLog r.1, r.2)

/-- A sequence of requests served one after the other. -/
def run (rt : Runtime) : List User → List Request → List Response × List User
  | users, [] => ([], users)
  | users, req :: reqs =>
    let r := handle rt users req
    let rs := run rt r.2 reqs
    (r.1 :: rs.1, rs.2)

/-- The random values consumed by the create requests of a trace that pass the
username check. -/
def draws : List Request → List (List (Fin 256))
  | [] => []
  | .createUser username randomBytes :: reqs =>
    if truthy username then randomBytes :: draws reqs else draws reqs
  | _ :: reqs => draws reqs

/-- The ids carried by the successful replies of `POST /api/users` in a list of replies. -/
def createdIds : List Response → List String
  | [] => []
  | .createUser (.ok r) :: rs => r._id :: createdIds rs
  | _ :: rs => createdIds rs

/-! ## A reference runtime

A concrete engine for evaluating the handlers: UTC or any fixed zone, the
ECMA-262 calendar, and `Date.parse` on the date-only ISO forms `YYYY-MM-DD` and
`±YYYYYY-MM-DD` (every other string is rejected).  The general statements below
quantify over every `Runtime`; this one only serves concrete evaluations. -/

/-- ECMA-262 `DayFromYear(y)`: day number of the first day of year `y`. -/
def DayFromYear (y : Int) : Int :=
  365 * (y - 1970) + (y - 1969) / 4 - (y - 1901) / 100 + (y - 1601) / 400

/-- ECMA-262 `DaysInYear(y)`. -/
def DaysInYear (y : Int) : Int :=
  if y % 4 ≠ 0 then 365 else if y % 100 ≠ 0 then 366 else if y % 400 ≠ 0 then 365 else 366

/-- ECMA-262 `YearFromTime`, on a day number: the largest year starting on or
before that day, found next to the estimate given by the mean year length. -/
def YearFromDay (day : Int) : Int :=
  let y := 1970 + day * 400 / 146097
  if DayFromYear (y + 1) ≤ day then y + 1
  else if DayFromYear y ≤ day then y
  else y - 1

/-- Day number of the first day of month `m` (0-based) within a year. -/
def monthStart (leap : Int) (m : Nat) : Int :=
  match m with
  | 0 => 0
  | 1 => 31
  | 2 => 59 + leap
  | 3 => 90 + leap
  | 4 => 120 + leap
  | 5 => 151 + leap
  | 6 => 181 + leap
  | 7 => 212 + leap
  | 8 => 243 + leap
  | 9 => 273 + leap
  | 10 => 304 + leap
  | 11 => 334 + leap
  | _ => 365 + leap

/-- ECMA-262 `MonthFromTime`, on the day within the year. -/
def monthFromDayInYear (leap dayInYear : Int) : Nat :=
  ((List.range 12).filter (fun m => monthStart leap m ≤ dayInYear)).length - 1

/-- Name of a week day, `0` being Sunday. -/
def weekDayName (d : Int) : String :=
  match d.toNat with
  | 0 => "Sun" | 1 => "Mon" | 2 => "Tue" | 3 => "Wed" | 4 => "Thu" | 5 => "Fri" | _ => "Sat"

/-- Name of a month, `0` being January. -/
def monthName (m : Nat) : String :=
  match m with
  | 0 => "Jan" | 1 => "Feb" | 2 => "Mar" | 3 => "Apr" | 4 => "May" | 5 => "Jun"
  | 6 => "Jul" | 7 => "Aug" | 8 => "Sep" | 9 => "Oct" | 10 => "Nov" | _ => "Dec"

/-- Decimal digits of a natural number, most significant first, with fuel. -/
def decimalDigits : Nat → Nat → List Char
  | 0, _ => []
  | fuel + 1, n => if n < 10 then [Char.ofNat (48 + n)]
                   else decimalDigits fuel (n / 10) ++ [Char.ofNat (48 + n % 10)]

/-- Pads a digit string with zeros on the left up to `width` characters. -/
def padZero (width : Nat) (cs : List Char) : List Char :=
  List.replicate (width - cs.length) '0' ++ cs

/-- Decimal rendering of a natural number, zero-padded to `width`. -/
def natString (width n : Nat) : String := String.mk (padZero width (decimalDigits (n + 1) n))

/-- ECMA-262 `Date.prototype.toDateString` of a valid time value in the zone `tza`:
week day, month, two-digit day and the year padded to four digits. -/
def engineToDateString (tza tv : Int) : String :=
  let day := Day (tv + tza)
  let y := YearFromDay day
  let leap := DaysInYear y - 365
  let dayInYear := day - DayFromYear y
  let m := monthFromDayInYear leap dayInYear
  let date := dayInYear - monthStart leap m + 1
  weekDayName ((day + 4) % 7) ++ " " ++ monthName m ++ " " ++ natString 2 date.toNat ++ " " ++
    (if y < 0 then "-" else "") ++ natString 4 y.natAbs

/-- The number written by a string of decimal digits, `none` if another character occurs. -/
def decimalValue : List Char → Option Nat
  | [] => some 0
  | cs => cs.foldl (fun acc c => match acc with
      | some a => if 48 ≤ c.toNat ∧ c.toNat ≤ 57 then some (a * 10 + (c.toNat - 48)) else none
      | none => none) (some 0)

/-- Time value of midnight UTC of a calendar date, `none` if the month or the
day of the month is out of range. -/
def makeUtcDate (y : Int) (m d : Nat) : Option Int :=
  let leap := DaysInYear y - 365
  if 1 ≤ m ∧ m ≤ 12 ∧ 1 ≤ d ∧ (d : Int) ≤ monthStart leap m - monthStart leap (m - 1) then
    some ((DayFromYear y + monthStart leap (m - 1) + (d - 1)) * msPerDay)
  else none

/-- The `Date.parse` of the reference runtime: `YYYY-MM-DD` and `±YYYYYY-MM-DD`
are read as midnight UTC (`-000000` is not a year), everything else is `NaN`. -/
def isoDateParse (s : String) : Option Int :=
  match s.toList with
  | [y1, y2, y3, y4, '-', m1, m2, '-', d1, d2] =>
    match decimalValue [y1, y2, y3, y4], decimalValue [m1, m2], decimalValue [d1, d2] with
    | some y, some m, some d => makeUtcDate y m d
    | _, _, _ => none
  | [sg, y1, y2, y3, y4, y5, y6, '-', m1, m2, '-', d1, d2] =>
    match decimalValue [y1, y2, y3, y4, y5, y6], decimalValue [m1, m2], decimalValue [d1, d2] with
    | some y, some m, some d =>
      if sg = '+' then makeUtcDate y m d
      else if sg = '-' ∧ y ≠ 0 then makeUtcDate (-(y : Int)) m d
      else none
    | _, _, _ => none
  | _ => none


/-- The reference runtime of a server whose local zone is `tza` milliseconds east of UTC. -/
def zoneRuntime (tza : Int) : Runtime := ⟨tza, isoDateParse, engineToDateString tza⟩

/-- The reference runtime of a server running in UTC. -/
def utcRuntime : Runtime := zoneRuntime 0


/-- The date given to a new exercise by `append_exercise`: the parsed `date`
field when one is supplied, the clock reading otherwise; `none` when the
supplied field is not a valid date. -/
def exerciseDateOf (rt : Runtime) (now : Int) (dateInput : Option String) : Option Int :=
  if truthy dateInput then newDate rt (dateInput.getD "") else some now

/-- The store of the examples: one user with exercises dated 2023-01-01,
2023-01-15 and 2023-02-01. -/
def sampleUsers : List User :=
  [⟨"alice", "0102030405060708090a0b0c",
    [⟨"run", .fin 30, 1672531200000⟩, ⟨"swim", .fin 45, 1673740800000⟩,
     ⟨"bike", .fin 60, 1675209600000⟩]⟩]

/-- The decimal digits of `10^400`, a one followed by 400 zeros: an integer
beyond the range of a double. -/
def digitsOfTenTo400 : String := String.mk ('1' :: List.replicate 400 '0')

/-- The only user of `sampleUsers`. -/
def sampleUser : User :=
  ⟨"alice", "0102030405060708090a0b0c",
    [⟨"run", .fin 30, 1672531200000⟩, ⟨"swim", .fin 45, 1673740800000⟩,
     ⟨"bike", .fin 60, 1675209600000⟩]⟩

/-! ## Properties -/

set_option maxRecDepth 100000

/-- A `from` value that parses makes the `from` step a filter on the parsed instant. -/
theorem applyFrom_valid (rt : Runtime) (qfrom : String) (fromDate : Int) (l : List Exercise)
    (hs : qfrom ≠ "") (hp : newDate rt qfrom = some fromDate) :
    applyFrom rt (some qfrom) l = l.filter (fun ex => fromDate ≤ ex.date) := by
  simp [applyFrom, truthy, hs, hp]

/-- Without a `from` value the `from` step changes nothing. -/
theorem applyFrom_none (rt : Runtime) (l : List Exercise) : applyFrom rt none l = l := rfl

/-- Without a `to` value the `to` step changes nothing. -/
theorem applyTo_none (rt : Runtime) (l : List Exercise) : applyTo rt none l = l := rfl

/-- Without a `limit` value nothing is truncated. -/
theorem applyLimit_none (l : List Exercise) : applyLimit none l = l := rfl

/-- A `from` value that does not parse leaves the sequence as it is. -/
theorem applyFrom_invalid (rt : Runtime) (qfrom : String) (l : List Exercise)
    (hp : newDate rt qfrom = none) : applyFrom rt (some qfrom) l = l := by
  simp [applyFrom, hp]

/-- A `to` value that does not parse leaves the sequence as it is. -/
theorem applyTo_invalid (rt : Runtime) (qto : String) (l : List Exercise)
    (hp : newDate rt qto = none) : applyTo rt (some qto) l = l := by
  simp [applyTo, hp]

/-- The reply of the log query for a user that is found. -/
theorem get_log_found (rt : Runtime) (users : List User) (userId : String)
    (qfrom qto qlimit : Option String) (user : User)
    (hu : users.find? (fun u => u._id = userId) = some user) :
    get_log rt users userId qfrom qto qlimit =
      (.ok ⟨user.username,
            (applyLimit qlimit (applyTo rt qto (applyFrom rt qfrom user.exercises))).length,
            user._id,
            (applyLimit qlimit (applyTo rt qto (applyFrom rt qfrom user.exercises))).map
              (formatEntry rt)⟩, users) := by
  simp [get_log, hu]

/-- C2: for an existing user and a `from` value that parses as a valid date (no
`to`, no `limit`), the log is exactly the exercises dated on or after the parsed
instant, in their original order, `count` is their number, and the store is
unchanged. -/
theorem get_log_from (rt : Runtime) (users : List User) (userId qfrom : String)
    (user : User) (fromDate : Int)
    (hu : users.find? (fun u => u._id = userId) = some user)
    (hs : qfrom ≠ "") (hp : newDate rt qfrom = some fromDate) :
    get_log rt users userId (some qfrom) none none =
      (.ok ⟨user.username,
            (user.exercises.filter (fun ex => fromDate ≤ ex.date)).length,
            user._id,
            (user.exercises.filter (fun ex => fromDate ≤ ex.date)).map (formatEntry rt)⟩,
       users) := by
  rw [get_log_found rt users userId _ _ _ user hu, applyLimit_none, applyTo_none,
    applyFrom_valid rt qfrom fromDate _ hs hp]

/-- The example of the specification for `from`, in UTC: with `from=2023-01-10`
the log of the sample user is the entries of 2023-01-15 and 2023-02-01. -/
theorem get_log_from_witness :
    sampleUsers.find? (fun u => u._id = "0102030405060708090a0b0c") = some sampleUser ∧
    "2023-01-10" ≠ "" ∧
    newDate utcRuntime "2023-01-10" = some 1673308800000 ∧
    get_log utcRuntime sampleUsers "0102030405060708090a0b0c" (some "2023-01-10") none none =
      (.ok ⟨"alice", 2, "0102030405060708090a0b0c",
            [⟨"swim", some 45, "Sun Jan 15 2023"⟩, ⟨"bike", some 60, "Wed Feb 01 2023"⟩]⟩, sampleUsers) :=
  ⟨by decide, by decide, by decide,
   (get_log_from utcRuntime sampleUsers "0102030405060708090a0b0c" "2023-01-10" sampleUser
      1673308800000 (by decide) (by decide) (by decide)).trans (by decide)⟩

/-- The end of the local day of a valid `to` date, when it is itself a valid
time value, keeps exactly the exercises whose local day is not after the local
day of `to`. -/
theorem applyTo_valid (rt : Runtime) (qto : String) (toDate : Int) (l : List Exercise)
    (hs : qto ≠ "") (hp : newDate rt qto = some toDate)
    (hr : MakeDate (Day (toDate + rt.tza)) (MakeTime 23 59 59 999) - rt.tza ≤ maxTime) :
    applyTo rt (some qto) l =
      l.filter (fun ex => Day (ex.date + rt.tza) ≤ Day (toDate + rt.tza)) := by
  have hclip : -maxTime ≤ toDate := by
    unfold newDate at hp
    cases hd : rt.dateParse qto with
    | none => simp [hd] at hp
    | some v =>
      simp only [hd, Option.some_bind, TimeClip] at hp
      split at hp
      · rename_i h
        cases hp
        exact h.1
      · cases hp
  have hset : setHours rt toDate 23 59 59 999 =
      some (MakeDate (Day (toDate + rt.tza)) (MakeTime 23 59 59 999) - rt.tza) := by
    unfold setHours TimeClip
    rw [if_pos]
    refine ⟨?_, hr⟩
    simp only [MakeDate, MakeTime, Day, msPerDay, maxTime] at *
    omega
  simp only [applyTo, truthy, hs, hp, hset, dateLe, ne_eq, not_false_eq_true, decide_True,
    if_true, Option.getD_some]
  apply List.filter_congr
  intro ex _
  simp only [MakeDate, MakeTime, Day, msPerDay, decide_eq_decide]
  omega

/-- The `to` filter away from the end of the time range: for an existing user
and a `to` value that parses as a valid date whose local day ends on a valid
time value (no `from`, no `limit`), the log is exactly the exercises whose local
day is not after the local day of `to`, in their original order. -/
theorem get_log_to_in_range (rt : Runtime) (users : List User) (userId qto : String)
    (user : User) (toDate : Int)
    (hu : users.find? (fun u => u._id = userId) = some user)
    (hs : qto ≠ "") (hp : newDate rt qto = some toDate)
    (hr : MakeDate (Day (toDate + rt.tza)) (MakeTime 23 59 59 999) - rt.tza ≤ maxTime) :
    get_log rt users userId none (some qto) none =
      (.ok ⟨user.username,
            (user.exercises.filter
              (fun ex => Day (ex.date + rt.tza) ≤ Day (toDate + rt.tza))).length,
            user._id,
            (user.exercises.filter
              (fun ex => Day (ex.date + rt.tza) ≤ Day (toDate + rt.tza))).map (formatEntry rt)⟩,
       users) := by
  rw [get_log_found rt users userId _ _ _ user hu, applyLimit_none, applyFrom_none,
    applyTo_valid rt qto toDate _ hs hp hr]

/-- The example of the specification for `to`, in UTC: with `to=2023-01-15` the
log of the sample user is the entries of 2023-01-01 and 2023-01-15. -/
theorem get_log_to_example :
    get_log utcRuntime sampleUsers "0102030405060708090a0b0c" none (some "2023-01-15") none =
      (.ok ⟨"alice", 2, "0102030405060708090a0b0c",
            [⟨"run", some 30, "Sun Jan 01 2023"⟩, ⟨"swim", some 45, "Sun Jan 15 2023"⟩]⟩, sampleUsers) :=
  (get_log_to_in_range utcRuntime sampleUsers "0102030405060708090a0b0c" "2023-01-15" sampleUser
    1673740800000 (by decide) (by decide) (by decide) (by decide)).trans (by decide)

/-- The `to` filter at the end of the time range: when the local day of a valid
`to` date ends after the largest time value, `setHours` leaves the invalid date
and the filter keeps nothing. -/
theorem applyTo_out_of_range (rt : Runtime) (qto : String) (toDate : Int) (l : List Exercise)
    (hs : qto ≠ "") (hp : newDate rt qto = some toDate)
    (hr : maxTime < MakeDate (Day (toDate + rt.tza)) (MakeTime 23 59 59 999) - rt.tza) :
    applyTo rt (some qto) l = [] := by
  have hset : setHours rt toDate 23 59 59 999 = none := by
    unfold setHours TimeClip
    rw [if_neg]
    intro h
    exact absurd h.2 (not_le.mpr hr)
  simp [applyTo, truthy, hs, hp, hset, dateLe]

/-- The `to` filter on a server five hours west of UTC: `to=2023-01-15` is read
as midnight UTC, which is 19:00 of 14 January local time, and the end of that
local day is 04:59:59.999 UTC of 15 January.  An exercise recorded at 12:00 UTC
of 15 January, which the log shows as `Sun Jan 15 2023`, is not returned. -/
theorem get_log_to_west_of_utc :
    newDate (zoneRuntime (-18000000)) "2023-01-15" = some 1673740800000 ∧
    setHours (zoneRuntime (-18000000)) 1673740800000 23 59 59 999 = some 1673758799999 ∧
    get_log (zoneRuntime (-18000000)) [⟨"alice", "0102030405060708090a0b0c",
        [⟨"run", .fin 30, 1673784000000⟩]⟩] "0102030405060708090a0b0c" none none none =
      (.ok ⟨"alice", 1, "0102030405060708090a0b0c", [⟨"run", some 30, "Sun Jan 15 2023"⟩]⟩,
       [⟨"alice", "0102030405060708090a0b0c", [⟨"run", .fin 30, 1673784000000⟩]⟩]) ∧
    get_log (zoneRuntime (-18000000)) [⟨"alice", "0102030405060708090a0b0c",
        [⟨"run", .fin 30, 1673784000000⟩]⟩] "0102030405060708090a0b0c" none (some "2023-01-15")
        none =
      (.ok ⟨"alice", 0, "0102030405060708090a0b0c", []⟩,
       [⟨"alice", "0102030405060708090a0b0c", [⟨"run", .fin 30, 1673784000000⟩]⟩]) := by
  decide

/-- C1: the `to` filter on the last day of the time range.  In UTC the value
`+275760-09-13` parses as the valid date 8640000000000000 and every exercise of
the sample user is dated before that instant, so all three are on or before
the end of that day; yet the log returned is empty.  Moving the date to
23:59:59.999 leaves the valid range, `setHours` leaves the invalid date, and
the comparison `ex.date <= toDate` is false for every exercise. -/
theorem get_log_to_last_day :
    newDate utcRuntime "+275760-09-13" = some 8640000000000000 ∧
    sampleUsers.find? (fun u => u._id = "0102030405060708090a0b0c") = some sampleUser ∧
    (∀ ex ∈ sampleUser.exercises, ex.date ≤ 8640000000000000) ∧
    setHours utcRuntime 8640000000000000 23 59 59 999 = none ∧
    get_log utcRuntime sampleUsers "0102030405060708090a0b0c" none (some "+275760-09-13") none =
      (.ok ⟨"alice", 0, "0102030405060708090a0b0c", []⟩, sampleUsers) := by
  decide

/-- C7: a `from` (respectively `to`) value that does not parse as a valid date
is ignored: for an existing user the reply is a success and equals the reply of
the same call with that parameter omitted, and with only the invalid `from`
supplied the log is the whole exercise sequence of the user. -/
theorem get_log_unparseable_ignored (rt : Runtime) (users : List User) (userId bad : String)
    (user : User) (hu : users.find? (fun u => u._id = userId) = some user)
    (hp : newDate rt bad = none) :
    (∀ qto qlimit, get_log rt users userId (some bad) qto qlimit =
        get_log rt users userId none qto qlimit) ∧
    (∀ qfrom qlimit, get_log rt users userId qfrom (some bad) qlimit =
        get_log rt users userId qfrom none qlimit) ∧
    (∀ qfrom qto qlimit, ∃ r, (get_log rt users userId qfrom qto qlimit).1 = .ok r) ∧
    get_log rt users userId (some bad) none none =
      (.ok ⟨user.username, user.exercises.length, user._id,
            user.exercises.map (formatEntry rt)⟩, users) := by
  refine ⟨?_, ?_, ?_, ?_⟩
  · intro qto qlimit
    simp only [get_log_found rt users userId _ _ _ user hu, applyFrom_invalid rt bad _ hp,
      applyFrom_none]
  · intro qfrom qlimit
    simp only [get_log_found rt users userId _ _ _ user hu, applyTo_invalid rt bad _ hp,
      applyTo_none]
  · intro qfrom qto qlimit
    exact ⟨_, congrArg Prod.fst (get_log_found rt users userId qfrom qto qlimit user hu)⟩
  · rw [get_log_found rt users userId _ _ _ user hu, applyLimit_none, applyTo_none,
      applyFrom_invalid rt bad _ hp]

/-- The example of the specification for an unparseable `from`, in UTC:
`from=not-a-date` returns the three entries of the sample user. -/
theorem get_log_unparseable_ignored_witness :
    sampleUsers.find? (fun u => u._id = "0102030405060708090a0b0c") = some sampleUser ∧
    newDate utcRuntime "not-a-date" = none ∧
    get_log utcRuntime sampleUsers "0102030405060708090a0b0c" (some "not-a-date") none none =
      (.ok ⟨"alice", 3, "0102030405060708090a0b0c",
            [⟨"run", some 30, "Sun Jan 01 2023"⟩, ⟨"swim", some 45, "Sun Jan 15 2023"⟩,
             ⟨"bike", some 60, "Wed Feb 01 2023"⟩]⟩, sampleUsers) :=
  ⟨by decide, by decide,
   (get_log_unparseable_ignored utcRuntime sampleUsers "0102030405060708090a0b0c" "not-a-date"
      sampleUser (by decide) (by decide)).2.2.2.trans (by decide)⟩

/-- The `limit` step for a value that `parseInt` reads as a positive integer. -/
theorem applyLimit_positive (qlimit : String) (n : Int) (l : List Exercise)
    (hs : qlimit ≠ "") (hn : parseInt qlimit = some (.fin n)) (hpos : 0 < n) :
    applyLimit (some qlimit) l = l.take n.toNat := by
  simp [applyLimit, truthy, hs, hn, Num.isPositive, hpos, sliceTo]

/-- The `limit` step for a value that is missing, empty, not numeric, not
positive, or read as an infinity: nothing is cut. -/
theorem applyLimit_ignored (qlimit : Option String) (l : List Exercise)
    (h : truthy qlimit = false ∨ parseInt (qlimit.getD "") = none ∨
      (∃ n, parseInt (qlimit.getD "") = some (.fin n) ∧ n ≤ 0) ∨
      parseInt (qlimit.getD "") = some .negInf ∨
      parseInt (qlimit.getD "") = some .posInf) :
    applyLimit qlimit l = l := by
  rcases h with h | h | ⟨n, h, hn⟩ | h | h
  · simp [applyLimit, h]
  · simp [applyLimit, h]
  · simp [applyLimit, h, Num.isPositive, not_lt.mpr hn]
  · simp [applyLimit, h, Num.isPositive]
  · simp [applyLimit, h, Num.isPositive, sliceTo]

/-- C3: for an existing user and any `from`/`to`, let `filtered` be the user's
exercises dated on or after the date of a supplied `from` that parses and on or
before the instant `setHours` leaves in the date of a supplied `to` that parses,
in their original order.  If `limit` is read by `parseInt` as a positive integer
`n`, the log is the first `min n filtered.length` entries of `filtered`,
formatted, and `count` is that minimum; if `limit` is absent, empty, not numeric
or not positive, the log is the whole of `filtered`, and so it is when the
digits of `limit` exceed the double range. -/
theorem get_log_limit (rt : Runtime) (users : List User) (userId : String)
    (qfrom qto : Option String) (user : User) (filtered : List Exercise)
    (hu : users.find? (fun u => u._id = userId) = some user)
    (hf : filtered = user.exercises.filter (fun ex =>
      (if truthy qfrom then newDate rt (qfrom.getD "") else none).all
        (fun fromDate => decide (fromDate ≤ ex.date)) &&
      (if truthy qto then newDate rt (qto.getD "") else none).all
        (fun toDate => (setHours rt toDate 23 59 59 999).any
          (fun endOfDay => decide (ex.date ≤ endOfDay))))) :
    (∀ (qlimit : String) (n : Int), qlimit ≠ "" → parseInt qlimit = some (.fin n) → 0 < n →
      get_log rt users userId qfrom qto (some qlimit) =
        (.ok ⟨user.username, min n.toNat filtered.length, user._id,
              (filtered.take n.toNat).map (formatEntry rt)⟩, users)) ∧
    (∀ qlimit : Option String,
      (truthy qlimit = false ∨ parseInt (qlimit.getD "") = none ∨
        (∃ n, parseInt (qlimit.getD "") = some (.fin n) ∧ n ≤ 0) ∨
        parseInt (qlimit.getD "") = some .negInf ∨
        parseInt (qlimit.getD "") = some .posInf) →
      get_log rt users userId qfrom qto qlimit =
        (.ok ⟨user.username, filtered.length, user._id, filtered.map (formatEntry rt)⟩,
         users)) := by
  have hfrom : applyFrom rt qfrom user.exercises = user.exercises.filter (fun ex =>
      (if truthy qfrom then newDate rt (qfrom.getD "") else none).all
        (fun fromDate => decide (fromDate ≤ ex.date))) := by
    unfold applyFrom
    by_cases h : truthy qfrom = true
    · cases hp : newDate rt (qfrom.getD "") <;> simp [h, hp]
    · simp [h]
  have hto : ∀ l : List Exercise, applyTo rt qto l = l.filter (fun ex =>
      (if truthy qto then newDate rt (qto.getD "") else none).all
        (fun toDate => (setHours rt toDate 23 59 59 999).any
          (fun endOfDay => decide (ex.date ≤ endOfDay)))) := by
    intro l
    unfold applyTo
    by_cases h : truthy qto = true
    · cases hp : newDate rt (qto.getD "") with
      | none => simp [h, hp]
      | some toDate =>
        cases hs : setHours rt toDate 23 59 59 999 <;> simp [h, hp, hs, dateLe]
    · simp [h]
  have hfl : applyTo rt qto (applyFrom rt qfrom user.exercises) = filtered := by
    rw [hf, hfrom, hto, List.filter_filter]
    apply List.filter_congr
    intro ex _
    exact Bool.and_comm _ _
  refine ⟨?_, ?_⟩
  · intro qlimit n hs hn hpos
    rw [get_log_found rt users userId _ _ _ user hu, hfl,
      applyLimit_positive qlimit n filtered hs hn hpos, List.length_take]
  · intro qlimit h
    rw [get_log_found rt users userId _ _ _ user hu, hfl, applyLimit_ignored qlimit filtered h]

/-- The sample user in UTC with `from=2023-01-10` and `to=2023-02-01`: the
filtered sequence is the entries of 2023-01-15 and 2023-02-01 (with
`to=2023-01-20`, the entry of 2023-01-15 alone); `limit=1` returns the first of
them, `limit=0` and `limit=abc` return both. -/
theorem get_log_limit_witness :
    sampleUsers.find? (fun u => u._id = "0102030405060708090a0b0c") = some sampleUser ∧
    get_log utcRuntime sampleUsers "0102030405060708090a0b0c" (some "2023-01-10") (some "2023-02-01") none =
      (.ok ⟨"alice", 2, "0102030405060708090a0b0c",
            [⟨"swim", some 45, "Sun Jan 15 2023"⟩, ⟨"bike", some 60, "Wed Feb 01 2023"⟩]⟩,
       sampleUsers) ∧
    get_log utcRuntime sampleUsers "0102030405060708090a0b0c" (some "2023-01-10") (some "2023-01-20") none =
      (.ok ⟨"alice", 1, "0102030405060708090a0b0c", [⟨"swim", some 45, "Sun Jan 15 2023"⟩]⟩, sampleUsers) ∧
    get_log utcRuntime sampleUsers "0102030405060708090a0b0c" (some "2023-01-10") (some "2023-02-01") (some "1") =
      (.ok ⟨"alice", 1, "0102030405060708090a0b0c", [⟨"swim", some 45, "Sun Jan 15 2023"⟩]⟩, sampleUsers) ∧
    get_log utcRuntime sampleUsers "0102030405060708090a0b0c" (some "2023-01-10") (some "2023-02-01") (some "0") =
      (.ok ⟨"alice", 2, "0102030405060708090a0b0c",
            [⟨"swim", some 45, "Sun Jan 15 2023"⟩, ⟨"bike", some 60, "Wed Feb 01 2023"⟩]⟩,
       sampleUsers) ∧
    get_log utcRuntime sampleUsers "0102030405060708090a0b0c" (some "2023-01-10") (some "2023-02-01")
        (some "abc") =
      (.ok ⟨"alice", 2, "0102030405060708090a0b0c",
            [⟨"swim", some 45, "Sun Jan 15 2023"⟩, ⟨"bike", some 60, "Wed Feb 01 2023"⟩]⟩,
       sampleUsers) := by
  have h := get_log_limit utcRuntime sampleUsers "0102030405060708090a0b0c" (some "2023-01-10")
    (some "2023-02-01") sampleUser
    [⟨"swim", .fin 45, 1673740800000⟩, ⟨"bike", .fin 60, 1675209600000⟩]
    (by decide) (by decide)
  exact ⟨by decide, by decide, by decide,
    (h.1 "1" 1 (by decide) (by decide) (by decide)).trans (by decide),
    (h.2 (some "0") (Or.inr (Or.inr (Or.inl ⟨0, by decide, by decide⟩)))).trans (by decide),
    (h.2 (some "abc") (Or.inr (Or.inl (by decide)))).trans (by decide)⟩

/-- The reply and the store of a successful `append_exercise`. -/
theorem append_exercise_success (rt : Runtime) (now : Int) (users : List User)
    (userId description duration : String) (dateInput : Option String)
    (durationNum : Num) (user : User) (exerciseDate : Int)
    (hd : description ≠ "") (hn : duration ≠ "")
    (hp : parseInt duration = some durationNum)
    (hu : users.find? (fun u => u._id = userId) = some user)
    (he : exerciseDateOf rt now dateInput = some exerciseDate) :
    append_exercise rt now users userId (some description) (some duration) dateInput =
      (.ok ⟨user.username, description, jsonNumber durationNum, rt.toDateString exerciseDate,
            user._id⟩,
       pushExercise userId ⟨description, durationNum, exerciseDate⟩ users) := by
  have h1 : truthy (some description) = true := by simp [truthy, hd]
  have h2 : truthy (some duration) = true := by simp [truthy, hn]
  unfold exerciseDateOf at he
  simp [append_exercise, h1, h2, hp, hu, he]

/-- A successful `append_exercise` passed every check of the handler. -/
theorem append_exercise_ok_inv (rt : Runtime) (now : Int) (users : List User)
    (userId : String) (description duration dateInput : Option String) (r : ExerciseJson)
    (h : (append_exercise rt now users userId description duration dateInput).1 = .ok r) :
    ∃ (desc dur : String) (durationNum : Num) (user : User) (exerciseDate : Int),
      description = some desc ∧ desc ≠ "" ∧ duration = some dur ∧ dur ≠ "" ∧
      parseInt dur = some durationNum ∧
      users.find? (fun u => u._id = userId) = some user ∧
      exerciseDateOf rt now dateInput = some exerciseDate := by
  unfold append_exercise at h
  split at h
  · cases h
  · rename_i htr
    simp only [Bool.or_eq_true, Bool.not_eq_true', not_or, Bool.not_eq_false] at htr
    obtain ⟨h1, h2⟩ := htr
    cases description with
    | none => simp [truthy] at h1
    | some desc =>
      cases duration with
      | none => simp [truthy] at h2
      | some dur =>
        simp only [truthy, ne_eq, decide_eq_true_eq] at h1 h2
        simp only [Option.getD_some] at h
        cases hp : parseInt dur with
        | none => simp [hp] at h
        | some n =>
          cases hu : users.find? (fun u => u._id = userId) with
          | none => simp [hp, hu] at h
          | some user =>
            cases he : exerciseDateOf rt now dateInput with
            | none =>
              unfold exerciseDateOf at he
              simp [hp, hu, he] at h
            | some d => exact ⟨desc, dur, n, user, d, rfl, h1, rfl, h2, hp, rfl, rfl⟩

/-- Natural numbers up to `2^53` are doubles. -/
theorem roundToDouble_exact (m : Nat) (h : m ≤ 9007199254740992) : roundToDouble m = some m := by
  rcases Nat.lt_or_ge m 9007199254740992 with hlt | hge
  · have he : doubleExponent 1024 0 m = 0 := by
      unfold doubleExponent
      simp [hlt]
    have hov : ¬ doubleOverflow ≤ m := by
      unfold doubleOverflow
      omega
    simp [roundToDouble, hov, he, Nat.mod_one]
  · have : m = 9007199254740992 := Nat.le_antisymm h hge
    subst this
    decide

/-- Integers of magnitude up to `2^53` are Numbers: `parseInt` returns the
integer it read. -/
theorem toNumber_exact (x : Int) (h : x.natAbs ≤ 9007199254740992) : toNumber x = .fin x := by
  unfold toNumber
  rw [roundToDouble_exact _ h]
  by_cases hx : x < 0
  · simp only [hx, if_true]
    congr 1
    omega
  · simp only [hx, if_false]
    congr 1
    omega

/-- The Number `parseInt` returns for an integer of magnitude up to `2^53`. -/
theorem parseInt_exact (string : String) (v : Int) (h : parseIntMath string = some v)
    (hv : v.natAbs ≤ 9007199254740992) : parseInt string = some (.fin v) := by
  simp [parseInt, h, toNumber_exact v hv]

/-- Looking up a user after a push finds the user found before, with the new
exercise at the end of its sequence. -/
theorem find_pushExercise (userId : String) (ex : Exercise) (users : List User) :
    (pushExercise userId ex users).find? (fun u => u._id = userId) =
      (users.find? (fun u => u._id = userId)).map
        (fun u => { u with exercises := u.exercises ++ [ex] }) := by
  induction users with
  | nil => rfl
  | cons u us ih =>
    unfold pushExercise
    by_cases h : u._id = userId
    · simp [h]
    · simp [h, ih]

/-- C6 as stated fails: a duration of 401 digits is read as Infinity, the append
succeeds, and the entry it adds to the log carries the duration `null`, not an
integer. -/
theorem append_then_get_log_null_duration :
    parseInt digitsOfTenTo400 = some .posInf ∧
    (append_exercise utcRuntime 1677672000000 sampleUsers "0102030405060708090a0b0c"
        (some "row") (some digitsOfTenTo400) none).1 =
      .ok ⟨"alice", "row", none, "Wed Mar 01 2023", "0102030405060708090a0b0c"⟩ ∧
    (get_log utcRuntime
        (append_exercise utcRuntime 1677672000000 sampleUsers "0102030405060708090a0b0c"
          (some "row") (some digitsOfTenTo400) none).2
        "0102030405060708090a0b0c" none none none).1 =
      .ok ⟨"alice", 4, "0102030405060708090a0b0c",
           [⟨"run", some 30, "Sun Jan 01 2023"⟩, ⟨"swim", some 45, "Sun Jan 15 2023"⟩,
            ⟨"bike", some 60, "Wed Feb 01 2023"⟩, ⟨"row", none, "Wed Mar 01 2023"⟩]⟩ := by
  decide

/-- C6 amended: after a successful `append_exercise` for `userId`, the unfiltered
log of that user is the unfiltered log from before the append followed by one
entry carrying the submitted description, the duration of the append reply and
the date string of the append reply; `count` grows by one.  That duration is the
Number `parseInt` read from the submitted duration as JSON writes it: the
integer written when its magnitude is at most `2^53`, `null` for an infinity. -/
theorem append_then_get_log (rt : Runtime) (now : Int) (users : List User) (userId : String)
    (description duration dateInput : Option String) (r : ExerciseJson)
    (h : (append_exercise rt now users userId description duration dateInput).1 = .ok r) :
    ∃ (user : User) (before : List LogEntry),
      (get_log rt users userId none none none).1 =
        .ok ⟨user.username, before.length, user._id, before⟩ ∧
      (get_log rt (append_exercise rt now users userId description duration dateInput).2
          userId none none none).1 =
        .ok ⟨user.username, before.length + 1, user._id,
             before ++ [⟨r.description, r.duration, r.date⟩]⟩ ∧
      some r.description = description ∧
      (∃ n, parseInt (duration.getD "") = some n ∧ r.duration = jsonNumber n) ∧
      (∀ v : Int, parseIntMath (duration.getD "") = some v → v.natAbs ≤ 9007199254740992 →
        r.duration = some v) := by
  obtain ⟨desc, dur, n, user, d, rfl, hd, rfl, hn, hp, hu, he⟩ :=
    append_exercise_ok_inv rt now users userId description duration dateInput r h
  have hs := append_exercise_success rt now users userId desc dur dateInput n user d hd hn hp hu he
  rw [hs] at h
  simp only [Except.ok.injEq] at h
  subst h
  refine ⟨user, user.exercises.map (formatEntry rt), ?_, ?_, rfl, ⟨n, hp, rfl⟩, ?_⟩
  · rw [get_log_found rt users userId _ _ _ user hu]
    simp [applyLimit, applyTo, applyFrom, truthy]
  · rw [hs]
    have hf := find_pushExercise userId ⟨desc, n, d⟩ users
    rw [hu] at hf
    rw [get_log_found rt _ userId _ _ _ _ hf]
    simp [applyLimit, applyTo, applyFrom, truthy, formatEntry]
  · intro v hv hb
    have hpe := parseInt_exact dur v hv hb
    simp only [Option.getD_some] at hpe
    rw [hp] at hpe
    cases hpe
    rfl

/-- An append without date at the clock reading of 2023-03-01 12:00 UTC on the
sample store, followed by the unfiltered log. -/
theorem append_then_get_log_witness :
    (append_exercise utcRuntime 1677672000000 sampleUsers "0102030405060708090a0b0c"
        (some "row") (some "20") none).1 =
      .ok ⟨"alice", "row", some 20, "Wed Mar 01 2023", "0102030405060708090a0b0c"⟩ ∧
    ∃ (user : User) (before : List LogEntry),
      (get_log utcRuntime sampleUsers "0102030405060708090a0b0c" none none none).1 =
        .ok ⟨user.username, before.length, user._id, before⟩ ∧
      (get_log utcRuntime
          (append_exercise utcRuntime 1677672000000 sampleUsers "0102030405060708090a0b0c"
            (some "row") (some "20") none).2
          "0102030405060708090a0b0c" none none none).1 =
        .ok ⟨user.username, before.length + 1, user._id,
             before ++ [⟨"row", some 20, "Wed Mar 01 2023"⟩]⟩ ∧
      some "row" = some "row" ∧
      (∃ n, parseInt ((some "20").getD "") = some n ∧ some (20 : Int) = jsonNumber n) ∧
      (∀ v : Int, parseIntMath ((some "20").getD "") = some v → v.natAbs ≤ 9007199254740992 →
        some (20 : Int) = some v) :=
  ⟨by decide,
   append_then_get_log utcRuntime 1677672000000 sampleUsers "0102030405060708090a0b0c"
     (some "row") (some "20") none ⟨"alice", "row", some 20, "Wed Mar 01 2023", "0102030405060708090a0b0c"⟩
     (by decide)⟩

/-- The checks on `description` and `duration` come before the lookup of the user. -/
theorem append_exercise_invalid (rt : Runtime) (now : Int) (users : List User) (userId : String)
    (description duration dateInput : Option String)
    (h : truthy description = false ∨ truthy duration = false ∨
      parseInt (duration.getD "") = none) :
    ∃ msg, append_exercise rt now users userId description duration dateInput =
      (.error ⟨400, msg⟩, users) := by
  unfold append_exercise
  split
  · exact ⟨_, rfl⟩
  · rename_i htr
    simp only [Bool.or_eq_true, Bool.not_eq_true', not_or, Bool.not_eq_false] at htr
    rcases h with h | h | h
    · simp [h] at htr
    · simp [h] at htr
    · simp only [h]
      exact ⟨_, rfl⟩

/-- C4 as stated fails: on the empty store, where no id is known, a request
whose duration does not parse is answered with the validation error of the
duration check, not with a not-found error. -/
theorem append_exercise_unknown_id_bad_duration :
    ([] : List User).find? (fun u => u._id = "nobody") = none ∧
    append_exercise utcRuntime 0 [] "nobody" (some "run") (some "abc") none =
      (.error ⟨400, "Duration must be a number"⟩, []) ∧
    (append_exercise utcRuntime 0 [] "nobody" (some "run") (some "abc") none).1 ≠
      .error ⟨404, "User not found"⟩ := by
  decide

/-- C4 amended: when `userId` matches no user the store is unchanged whatever
the fields are; the reply is the not-found error when `description` and
`duration` are present and `duration` parses as an integer, for any `date`
(valid, invalid or absent), and a validation error (400) otherwise. -/
theorem append_exercise_unknown_id (rt : Runtime) (now : Int) (users : List User)
    (userId : String) (description duration dateInput : Option String)
    (hu : users.find? (fun u => u._id = userId) = none) :
    (append_exercise rt now users userId description duration dateInput).2 = users ∧
    (truthy description = true → truthy duration = true →
      parseInt (duration.getD "") ≠ none →
      append_exercise rt now users userId description duration dateInput =
        (.error ⟨404, "User not found"⟩, users)) ∧
    ((truthy description = false ∨ truthy duration = false ∨
        parseInt (duration.getD "") = none) →
      ∃ msg, append_exercise rt now users userId description duration dateInput =
        (.error ⟨400, msg⟩, users)) := by
  have hnf : truthy description = true → truthy duration = true →
      parseInt (duration.getD "") ≠ none →
      append_exercise rt now users userId description duration dateInput =
        (.error ⟨404, "User not found"⟩, users) := by
    intro h1 h2 h3
    cases hp : parseInt (duration.getD "") with
    | none => exact absurd hp h3
    | some n => simp [append_exercise, h1, h2, hp, hu]
  have hbad := append_exercise_invalid rt now users userId description duration dateInput
  refine ⟨?_, hnf, hbad⟩
  by_cases h1 : truthy description = true
  · by_cases h2 : truthy duration = true
    · by_cases h3 : parseInt (duration.getD "") = none
      · obtain ⟨msg, hm⟩ := hbad (Or.inr (Or.inr h3))
        rw [hm]
      · rw [hnf h1 h2 h3]
    · obtain ⟨msg, hm⟩ := hbad (Or.inr (Or.inl (by simpa using h2)))
      rw [hm]
  · obtain ⟨msg, hm⟩ := hbad (Or.inl (by simpa using h1))
    rw [hm]

/-- An unknown id with valid description and duration is answered 404 even when
the date does not parse. -/
theorem append_exercise_unknown_id_witness :
    sampleUsers.find? (fun u => u._id = "nobody") = none ∧
    append_exercise utcRuntime 0 sampleUsers "nobody" (some "run") (some "30")
        (some "not-a-date") =
      (.error ⟨404, "User not found"⟩, sampleUsers) :=
  ⟨by decide,
   (append_exercise_unknown_id utcRuntime 0 sampleUsers "nobody" (some "run") (some "30")
      (some "not-a-date") (by decide)).2.1 (by decide) (by decide) (by decide)⟩

/-- C5 as stated fails twice.  With an empty description, a duration that does
not parse is reported by the validation error of the presence check, not by
the one of the duration check.  A duration of 401 digits is read as Infinity,
which is not `NaN`: the call succeeds, Infinity is stored and the reply carries
the duration `null`. -/
theorem append_exercise_duration_as_stated :
    append_exercise utcRuntime 1677672000000 sampleUsers "0102030405060708090a0b0c"
        (some "") (some "abc") none =
      (.error ⟨400, "Description and duration are required"⟩, sampleUsers) ∧
    parseInt digitsOfTenTo400 = some .posInf ∧
    append_exercise utcRuntime 1677672000000 sampleUsers "0102030405060708090a0b0c"
        (some "run") (some digitsOfTenTo400) none =
      (.ok ⟨"alice", "run", none, "Wed Mar 01 2023", "0102030405060708090a0b0c"⟩,
       pushExercise "0102030405060708090a0b0c" ⟨"run", .posInf, 1677672000000⟩ sampleUsers) := by
  decide

/-- C5 amended: for a `duration` field that is present.  If `parseInt` reads no
number from it, the call fails with a validation error (400) and the store is
unchanged, for every user id, description and date: the error of the duration
check when a description is present, the error of the presence check when it
is missing or empty.  If `parseInt` reads the Number `n` and the call goes
through (description present, user found, date absent or valid), the exercise
pushed on the user has `duration = n` and the reply carries `n` as JSON writes
it; `n` is the integer written when its magnitude is at most `2^53`. -/
theorem append_exercise_duration (rt : Runtime) (now : Int) (users : List User)
    (userId : String) (description dateInput : Option String) (duration : String)
    (hn : duration ≠ "") :
    (parseInt duration = none →
      (truthy description = true →
        append_exercise rt now users userId description (some duration) dateInput =
          (.error ⟨400, "Duration must be a number"⟩, users)) ∧
      (truthy description = false →
        append_exercise rt now users userId description (some duration) dateInput =
          (.error ⟨400, "Description and duration are required"⟩, users))) ∧
    (∀ (n : Num) (user : User) (exerciseDate : Int),
      parseInt duration = some n → truthy description = true →
      users.find? (fun u => u._id = userId) = some user →
      exerciseDateOf rt now dateInput = some exerciseDate →
      append_exercise rt now users userId description (some duration) dateInput =
        (.ok ⟨user.username, description.getD "", jsonNumber n, rt.toDateString exerciseDate,
              user._id⟩,
         pushExercise userId ⟨description.getD "", n, exerciseDate⟩ users) ∧
      (pushExercise userId ⟨description.getD "", n, exerciseDate⟩ users).find?
          (fun u => u._id = userId) =
        some { user with
          exercises := user.exercises ++ [⟨description.getD "", n, exerciseDate⟩] }) ∧
    (∀ v : Int, parseIntMath duration = some v → v.natAbs ≤ 9007199254740992 →
      parseInt duration = some (.fin v) ∧ jsonNumber (.fin v) = some v) := by
  have h2 : truthy (some duration) = true := by simp [truthy, hn]
  refine ⟨fun hp => ⟨?_, ?_⟩, ?_, ?_⟩
  · intro h1
    simp [append_exercise, h1, h2, hp]
  · intro h1
    simp [append_exercise, h1]
  · intro n user d hp h1 hu he
    cases description with
    | none => simp [truthy] at h1
    | some desc =>
      have hd : desc ≠ "" := by simpa [truthy] using h1
      refine ⟨append_exercise_success rt now users userId desc duration dateInput n user d
        hd hn hp hu he, ?_⟩
      rw [find_pushExercise, hu]
      rfl
  · intro v hv hb
    exact ⟨parseInt_exact duration v hv hb, rfl⟩

/-- The examples of the specification for the duration: `abc` fails validation
and leaves the store unchanged, `30` is stored and returned as the integer 30. -/
theorem append_exercise_duration_witness :
    "abc" ≠ "" ∧ "30" ≠ "" ∧
    append_exercise utcRuntime 1677672000000 sampleUsers "0102030405060708090a0b0c" (some "run") (some "abc") none =
      (.error ⟨400, "Duration must be a number"⟩, sampleUsers) ∧
    append_exercise utcRuntime 1677672000000 sampleUsers "0102030405060708090a0b0c" (some "run") (some "30") none =
      (.ok ⟨"alice", "run", some 30, "Wed Mar 01 2023", "0102030405060708090a0b0c"⟩,
       pushExercise "0102030405060708090a0b0c" ⟨"run", .fin 30, 1677672000000⟩ sampleUsers) ∧
    parseInt "30" = some (.fin 30) :=
  ⟨by decide, by decide,
   ((append_exercise_duration utcRuntime 1677672000000 sampleUsers "0102030405060708090a0b0c" (some "run") none
      "abc" (by decide)).1 (by decide)).1 (by decide),
   ((append_exercise_duration utcRuntime 1677672000000 sampleUsers "0102030405060708090a0b0c" (some "run") none
      "30" (by decide)).2.1 (.fin 30) sampleUser 1677672000000 (by decide) (by decide)
      (by decide) (by decide)).1,
   ((append_exercise_duration utcRuntime 1677672000000 sampleUsers "0102030405060708090a0b0c" (some "run") none
      "30" (by decide)).2.2 30 (by decide) (by decide)).1⟩

/-- The store left by `append_exercise` is the store before, or the store with one push. -/
theorem append_exercise_store (rt : Runtime) (now : Int) (users : List User) (userId : String)
    (description duration dateInput : Option String) :
    (append_exercise rt now users userId description duration dateInput).2 = users ∨
    ∃ ex, (append_exercise rt now users userId description duration dateInput).2 =
      pushExercise userId ex users := by
  by_cases hbad : truthy description = false ∨ truthy duration = false ∨
      parseInt (duration.getD "") = none
  · obtain ⟨msg, hm⟩ :=
      append_exercise_invalid rt now users userId description duration dateInput hbad
    exact Or.inl (by rw [hm])
  · simp only [not_or, Bool.not_eq_false] at hbad
    obtain ⟨h1, h2, h3⟩ := hbad
    cases hp : parseInt (duration.getD "") with
    | none => exact absurd hp h3
    | some n =>
      cases hu : users.find? (fun u => u._id = userId) with
      | none => exact Or.inl (by simp [append_exercise, h1, h2, hp, hu])
      | some user =>
        cases he : exerciseDateOf rt now dateInput with
        | none =>
          unfold exerciseDateOf at he
          exact Or.inl (by simp [append_exercise, h1, h2, hp, hu, he])
        | some d =>
          unfold exerciseDateOf at he
          exact Or.inr ⟨⟨description.getD "", n, d⟩, by simp [append_exercise, h1, h2, hp, hu, he]⟩

/-- A push touches one position only: the first whose id is `userId`, where the
exercise is added at the end of the sequence. -/
theorem getElem?_pushExercise (userId : String) (ex : Exercise) :
    ∀ (users : List User) (i : Nat),
      (pushExercise userId ex users)[i]? =
        if i = users.findIdx (fun u => u._id = userId) then
          users[i]?.map (fun u => { u with exercises := u.exercises ++ [ex] })
        else users[i]?
  | [], i => by simp [pushExercise]
  | u :: us, i => by
    unfold pushExercise
    by_cases h : u._id = userId
    · cases i with
      | zero => simp [h, List.findIdx_cons]
      | succ j => simp [h, List.findIdx_cons]
    · cases i with
      | zero => simp [h, List.findIdx_cons]
      | succ j =>
        have := getElem?_pushExercise userId ex us j
        simp [h, List.findIdx_cons, this]

/-- A push keeps the number of users. -/
theorem length_pushExercise (userId : String) (ex : Exercise) (users : List User) :
    (pushExercise userId ex users).length = users.length := by
  induction users with
  | nil => rfl
  | cons u us ih =>
    unfold pushExercise
    split
    · rfl
    · simp [ih]

/-- Every user keeps its position, id and name across a push, and its sequence
before is an initial segment of its sequence after. -/
theorem pushExercise_extends (userId : String) (ex : Exercise) (users : List User)
    (i : Nat) (u : User) (h : users[i]? = some u) :
    ∃ v, (pushExercise userId ex users)[i]? = some v ∧ v._id = u._id ∧
      v.username = u.username ∧ u.exercises <+: v.exercises := by
  rw [getElem?_pushExercise, h]
  split
  · exact ⟨_, rfl, rfl, rfl, ⟨[ex], rfl⟩⟩
  · exact ⟨u, rfl, rfl, rfl, ⟨[], List.append_nil _⟩⟩

/-- C9: across every request, every user of the store keeps its position, its
id and its username, and its exercise sequence before is an initial segment of
its sequence afterwards; `create_user` only adds at the end of the store,
`list_users` and `get_log` leave the store unchanged, and `append_exercise`
keeps the number of users and every position other than that of the first
user whose id is the one requested. -/
theorem store_append_only (rt : Runtime) (users : List User) :
    (∀ (req : Request) (i : Nat) (u : User), users[i]? = some u →
      ∃ v, (handle rt users req).2[i]? = some v ∧ v._id = u._id ∧
        v.username = u.username ∧ u.exercises <+: v.exercises) ∧
    (∀ username randomBytes, users <+: (handle rt users (.createUser username randomBytes)).2) ∧
    (handle rt users .listUsers).2 = users ∧
    (∀ userId qfrom qto qlimit, (handle rt users (.getLog userId qfrom qto qlimit)).2 = users) ∧
    (∀ now userId description duration date,
      (handle rt users (.appendExercise now userId description duration date)).2.length =
        users.length ∧
      ∀ i, i ≠ users.findIdx (fun u => u._id = userId) →
        (handle rt users (.appendExercise now userId description duration date)).2[i]? =
          users[i]?) := by
  have hcreate : ∀ username randomBytes,
      users <+: (handle rt users (.createUser username randomBytes)).2 := by
    intro username randomBytes
    simp only [handle, create_user]
    split
    · exact ⟨[], List.append_nil _⟩
    · exact ⟨_, rfl⟩
  have hlog : ∀ userId qfrom qto qlimit,
      (handle rt users (.getLog userId qfrom qto qlimit)).2 = users := by
    intro userId qfrom qto qlimit
    simp only [handle, get_log]
    split <;> rfl
  refine ⟨?_, hcreate, rfl, hlog, ?_⟩
  · intro req i u hi
    have hsame : ∃ v, users[i]? = some v ∧ v._id = u._id ∧
        v.username = u.username ∧ u.exercises <+: v.exercises :=
      ⟨u, hi, rfl, rfl, ⟨[], List.append_nil _⟩⟩
    cases req with
    | createUser username randomBytes =>
      obtain ⟨t, ht⟩ := hcreate username randomBytes
      rw [← ht]
      have hlt : i < users.length := by
        rcases List.getElem?_eq_some.mp hi with ⟨hlt, _⟩
        exact hlt
      rw [List.getElem?_append_left hlt]
      exact hsame
    | listUsers => exact hsame
    | appendExercise now userId description duration date =>
      simp only [handle]
      rcases append_exercise_store rt now users userId description duration date with h | ⟨ex, h⟩
      · rw [h]; exact hsame
      · rw [h]; exact pushExercise_extends userId ex users i u hi
    | getLog userId qfrom qto qlimit =>
      rw [hlog]; exact hsame
  · intro now userId description duration date
    simp only [handle]
    rcases append_exercise_store rt now users userId description duration date with h | ⟨ex, h⟩
    · rw [h]; exact ⟨rfl, fun _ _ => rfl⟩
    · rw [h]
      refine ⟨length_pushExercise userId ex users, fun i hi => ?_⟩
      rw [getElem?_pushExercise, if_neg hi]

/-- A run of create requests with non-empty usernames answers each with the
name and the rendered random value, and adds the users at the end of the store
in the order of the requests. -/
theorem run_creates (rt : Runtime) :
    ∀ (calls : List (String × List (Fin 256))) (users : List User),
      (∀ c ∈ calls, c.1 ≠ "") →
      run rt users (calls.map (fun c => Request.createUser (some c.1) c.2)) =
        (calls.map (fun c => Response.createUser (.ok ⟨c.1, toHex c.2⟩)),
         users ++ calls.map (fun c => (⟨c.1, toHex c.2, []⟩ : User)))
  | [], users, _ => by simp [run]
  | c :: calls, users, h => by
    have hc : c.1 ≠ "" := h c (List.mem_cons_self _ _)
    have ht : truthy (some c.1) = true := by simp [truthy, hc]
    have ih := run_creates rt calls (users ++ [⟨c.1, toHex c.2, []⟩])
      (fun d hd => h d (List.mem_cons_of_mem _ hd))
    simp only [List.map_cons, run, handle, create_user, ht, Bool.not_true, Bool.false_eq_true,
      if_false, Option.getD_some, ih, List.append_assoc, List.singleton_append]

/-- C10: after successful `create_user` calls with usernames `n1..nk` from the
empty store, `list_users` returns exactly `k` entries, the i-th made of the
username `ni` and the id returned by the i-th call, in creation order, and
leaves the store unchanged; on the empty store it returns the empty sequence. -/
theorem list_users_after_creates (rt : Runtime) (calls : List (String × List (Fin 256)))
    (h : ∀ c ∈ calls, c.1 ≠ "") :
    (run rt [] (calls.map (fun c => Request.createUser (some c.1) c.2))).1 =
      calls.map (fun c => Response.createUser (.ok ⟨c.1, toHex c.2⟩)) ∧
    list_users (run rt [] (calls.map (fun c => Request.createUser (some c.1) c.2))).2 =
      (calls.map (fun c => (⟨c.1, toHex c.2⟩ : UserJson)),
       (run rt [] (calls.map (fun c => Request.createUser (some c.1) c.2))).2) ∧
    (list_users (run rt [] (calls.map (fun c => Request.createUser (some c.1) c.2))).2).1.length =
      calls.length ∧
    list_users [] = ([], []) := by
  rw [run_creates rt calls [] h]
  refine ⟨rfl, ?_, ?_, rfl⟩
  · simp [list_users, Function.comp_def]
  · simp [list_users]

/-- Two users created one after the other are listed in that order. -/
theorem list_users_after_creates_witness :
    (∀ c ∈ [("alice", [1, 2, 3, 4, 5, 6, 7, 8, 9, 10, 11, 12]),
            ("bob", ([255, 0, 0, 0, 0, 0, 0, 0, 0, 0, 0, 16] : List (Fin 256)))], c.1 ≠ "") ∧
    (list_users (run utcRuntime []
        [.createUser (some "alice") [1, 2, 3, 4, 5, 6, 7, 8, 9, 10, 11, 12],
         .createUser (some "bob") [255, 0, 0, 0, 0, 0, 0, 0, 0, 0, 0, 16]]).2).1 =
      [⟨"alice", "0102030405060708090a0b0c"⟩, ⟨"bob", "ff0000000000000000000010"⟩] :=
  ⟨by decide,
   (congrArg Prod.fst (list_users_after_creates utcRuntime
      [("alice", [1, 2, 3, 4, 5, 6, 7, 8, 9, 10, 11, 12]),
       ("bob", [255, 0, 0, 0, 0, 0, 0, 0, 0, 0, 0, 16])] (by decide)).2.1).trans (by decide)⟩

/-- Distinct nibbles are written with distinct hexadecimal digits. -/
theorem hexDigit_injective : ∀ a b : Fin 16, hexDigit a.val = hexDigit b.val → a = b := by
  decide

/-- The same on natural numbers below 16. -/
theorem hexDigit_inj (a b : Nat) (ha : a < 16) (hb : b < 16) (h : hexDigit a = hexDigit b) :
    a = b := by
  have := hexDigit_injective ⟨a, ha⟩ ⟨b, hb⟩ h
  exact congrArg Fin.val this

/-- The hexadecimal rendering determines the bytes. -/
theorem hexChars_injective : ∀ xs ys : List (Fin 256), hexChars xs = hexChars ys → xs = ys
  | [], [], _ => rfl
  | [], _ :: _, h => by simp [hexChars] at h
  | _ :: _, [], h => by simp [hexChars] at h
  | x :: xs, y :: ys, h => by
    simp only [hexChars, List.cons.injEq] at h
    obtain ⟨h1, h2, h3⟩ := h
    have e1 := hexDigit_inj _ _ (by omega) (by omega) h1
    have e2 := hexDigit_inj _ _ (Nat.mod_lt _ (by decide)) (Nat.mod_lt _ (by decide)) h2
    have hxy : x = y := by
      apply Fin.ext
      omega
    rw [hxy, hexChars_injective xs ys h3]

/-- Distinct random values are rendered as distinct ids. -/
theorem toHex_injective : Function.Injective toHex := by
  intro xs ys h
  unfold toHex at h
  exact hexChars_injective xs ys (congrArg String.data h)

/-- A push changes no id. -/
theorem map_id_pushExercise (userId : String) (ex : Exercise) (users : List User) :
    (pushExercise userId ex users).map (fun u => u._id) = users.map (fun u => u._id) := by
  induction users with
  | nil => rfl
  | cons u us ih =>
    unfold pushExercise
    split
    · rfl
    · simp [ih]

/-- The ids in the store after a trace are the ids before followed by the
renderings of the random values drawn, and these are the ids handed out. -/
theorem run_ids (rt : Runtime) (reqs : List Request) : ∀ users : List User,
    (run rt users reqs).2.map (fun u => u._id) =
      users.map (fun u => u._id) ++ (draws reqs).map toHex ∧
    createdIds (run rt users reqs).1 = (draws reqs).map toHex := by
  induction reqs with
  | nil => intro users; simp [run, draws, createdIds]
  | cons req reqs ih =>
    intro users
    cases req with
    | createUser username randomBytes =>
      by_cases ht : truthy username = true
      · have := ih (users ++ [⟨username.getD "", toHex randomBytes, []⟩])
        simp [run, handle, create_user, draws, createdIds, ht, this]
      · have := ih users
        simp [run, handle, create_user, draws, createdIds, ht, this]
    | listUsers =>
      have := ih users
      simp [run, handle, list_users, draws, createdIds, this]
    | appendExercise now userId description duration date =>
      have hc : createdIds (run rt users
          (Request.appendExercise now userId description duration date :: reqs)).1 =
          createdIds (run rt (append_exercise rt now users userId description duration date).2
            reqs).1 := by
        simp [run, handle, createdIds]
      have hs : (run rt users
          (Request.appendExercise now userId description duration date :: reqs)).2 =
          (run rt (append_exercise rt now users userId description duration date).2 reqs).2 := by
        simp [run, handle]
      rw [hc, hs]
      have := ih (append_exercise rt now users userId description duration date).2
      refine ⟨?_, by simpa [draws] using this.2⟩
      rw [this.1]
      rcases append_exercise_store rt now users userId description duration date with h | ⟨ex, h⟩
      · rw [h]; simp [draws]
      · rw [h, map_id_pushExercise]; simp [draws]
    | getLog userId qfrom qto qlimit =>
      have hg : (get_log rt users userId qfrom qto qlimit).2 = users := by
        unfold get_log
        split <;> rfl
      have := ih users
      simp [run, handle, draws, createdIds, hg, this]

/-- C8 as stated fails: two users created with the same random value get the
same id, so the ids returned, and the ids in the store, are not pairwise
distinct. -/
theorem create_user_same_draw :
    createdIds (run utcRuntime []
        [.createUser (some "alice") [0, 0, 0, 0, 0, 0, 0, 0, 0, 0, 0, 0],
         .createUser (some "bob") [0, 0, 0, 0, 0, 0, 0, 0, 0, 0, 0, 0]]).1 =
      ["000000000000000000000000", "000000000000000000000000"] ∧
    (run utcRuntime []
        [.createUser (some "alice") [0, 0, 0, 0, 0, 0, 0, 0, 0, 0, 0, 0],
         .createUser (some "bob") [0, 0, 0, 0, 0, 0, 0, 0, 0, 0, 0, 0]]).2 =
      [⟨"alice", "000000000000000000000000", []⟩, ⟨"bob", "000000000000000000000000", []⟩] ∧
    ¬ (createdIds (run utcRuntime []
        [.createUser (some "alice") [0, 0, 0, 0, 0, 0, 0, 0, 0, 0, 0, 0],
         .createUser (some "bob") [0, 0, 0, 0, 0, 0, 0, 0, 0, 0, 0, 0]]).1).Nodup := by
  decide

/-- C8 amended: in every trace of requests from the empty store in which the
random values drawn by the successful create requests are pairwise distinct,
the ids returned are pairwise distinct, they are the ids of the users in the
store, in order, and there is one per successful create request. -/
theorem ids_distinct_of_distinct_draws (rt : Runtime) (reqs : List Request)
    (h : (draws reqs).Nodup) :
    (createdIds (run rt [] reqs).1).Nodup ∧
    ((run rt [] reqs).2.map (fun u => u._id)).Nodup ∧
    createdIds (run rt [] reqs).1 = (run rt [] reqs).2.map (fun u => u._id) ∧
    (createdIds (run rt [] reqs).1).length = (draws reqs).length := by
  obtain ⟨h1, h2⟩ := run_ids rt reqs []
  have hn : ((draws reqs).map toHex).Nodup := h.map toHex_injective
  simp only [List.map_nil, List.nil_append] at h1
  rw [h1, h2]
  exact ⟨hn, hn, rfl, List.length_map _ _⟩

/-- Two users created with different random values get different ids. -/
theorem ids_distinct_of_distinct_draws_witness :
    (draws [.createUser (some "alice") [1, 2, 3, 4, 5, 6, 7, 8, 9, 10, 11, 12],
            .listUsers,
            .createUser (some "bob") [255, 0, 0, 0, 0, 0, 0, 0, 0, 0, 0, 16]]).Nodup ∧
    (createdIds (run utcRuntime []
        [.createUser (some "alice") [1, 2, 3, 4, 5, 6, 7, 8, 9, 10, 11, 12],
         .listUsers,
         .createUser (some "bob") [255, 0, 0, 0, 0, 0, 0, 0, 0, 0, 0, 16]]).1).Nodup :=
  ⟨by decide,
   (ids_distinct_of_distinct_draws utcRuntime
      [.createUser (some "alice") [1, 2, 3, 4, 5, 6, 7, 8, 9, 10, 11, 12],
       .listUsers,
       .createUser (some "bob") [255, 0, 0, 0, 0, 0, 0, 0, 0, 0, 0, 16]] (by decide)).1⟩

end ExerciseTracker
